import Mathlib

/-!
# Verification of the libreconomy decision engine and reputation subsystem

Shallow embedding of the core of the `libreconomy` Rust crate:

* the utility-based decision engine (`src/decision/utility_maximizer.rs`),
  modelled over `ℚ` (the engine uses only field operations, `max` and
  comparisons on `f32`, which the rationals model faithfully for the
  finite, non-NaN values the engine manipulates);
* the `f32`-level clamping of `Needs::new` (`src/agent/components.rs`),
  modelled over `Option EReal` so that NaN (`none`) and the infinities are
  representable;
* the reputation subsystem (`ReputationView`, `ReputationKnowledge`,
  `ReputationUpdateSystem`, `ReputationDecaySystem`), modelled over `ℝ`
  because `score_with_decay` uses the exponential function.

Panics (`expect`, out-of-bounds indexing) are modelled by `Option`:
a `none` result of `UtilityMaximizer.decide` is a panic.
-/

namespace Libreconomy

/-- Rust `AgentId(pub u64)` from `src/agent/identity.rs`, modelled as `ℕ`. -/
abbrev AgentId := ℕ

/-- The `Agent` identity component (`src/agent/components.rs`). -/
structure Agent where
  id : AgentId
deriving DecidableEq, Repr

/-- Rust `Needs` component for the decision engine: thirst, hunger, tiredness.
The engine only reads the three fields and compares them with thresholds,
so plain rationals model the `f32` fields. -/
structure Needs where
  thirst : ℚ
  hunger : ℚ
  tiredness : ℚ
deriving DecidableEq, Repr

/-- Rust `Species` enum (`src/agent/components.rs`). -/
inductive Species where
  | Human : Species
  | Rabbit : Species
  | Custom : ℕ → Species
deriving DecidableEq, Repr

/-- Rust `DietType` enum (`src/agent/components.rs`). -/
inductive DietType where
  | Herbivore : (preferred_plants : List String) → DietType
  | Carnivore : (preferred_prey : List Species) → DietType
  | Omnivore : (plants : List String) → (prey : List Species) → DietType
deriving DecidableEq, Repr

/-- Rust `SpeciesComponent` (`src/agent/components.rs`). -/
structure SpeciesComponent where
  species : Species
  diet : DietType
deriving DecidableEq, Repr

/-- Rust `Intent` enum (`src/decision/types.rs`). -/
inductive Intent where
  | SeekItem : (item_type : String) → (urgency : ℚ) → Intent
  | FindWork : (skill_types : List String) → Intent
  | SeekTrade : (buying : Bool) → (item_type : String) → Intent
  | Rest : Intent
  | Wander : Intent
deriving DecidableEq, Repr

/-- Rust `ActionType` enum (`src/decision/types.rs`); carried along for the
`DecisionOutput` union, never produced by the engine. -/
inductive ActionType where
  | InitiateTrade : (item : String) → (offer_price : ℚ) → ActionType
  | Hunt : (target : AgentId) → ActionType
  | Consume : (resource_location : ℚ × ℚ) → ActionType
  | AcceptEmployment : (wage : ℚ) → ActionType
  | AskForInformation : (query_type : String) → ActionType
deriving DecidableEq, Repr

/-- Rust `Action` struct (`src/decision/types.rs`). -/
structure Action where
  target_agent : AgentId
  action_type : ActionType
deriving DecidableEq, Repr

/-- Rust `Transaction` struct (`src/decision/types.rs`). -/
structure Transaction where
  buyer : AgentId
  seller : AgentId
  item : String
  quantity : ℕ
  price : ℚ
  success : Bool
deriving DecidableEq, Repr

/-- Rust `DecisionOutput` enum (`src/decision/types.rs`). -/
inductive DecisionOutput where
  | Intent : Libreconomy.Intent → DecisionOutput
  | Action : Libreconomy.Action → DecisionOutput
  | Transaction : Libreconomy.Transaction → DecisionOutput
deriving DecidableEq, Repr

/-- Rust `ResourceLocation` (`src/world_query.rs`). -/
structure ResourceLocation where
  x : ℚ
  y : ℚ
  distance : ℚ
deriving DecidableEq, Repr

/-- The `WorldQuery` trait (`src/world_query.rs`) as a record of the three
host-provided capabilities. -/
structure WorldQuery where
  getNearbyAgents : AgentId → ℕ → List AgentId
  getNearbyResources : AgentId → String → ℚ → List ResourceLocation
  canInteract : AgentId → AgentId → Bool

/-- Rust `DecisionThresholds` (`src/decision/utility_maximizer.rs`). -/
structure DecisionThresholds where
  critical_thirst : ℚ
  high_thirst : ℚ
  critical_hunger : ℚ
  high_hunger : ℚ
  critical_tiredness : ℚ
  high_tiredness : ℚ
deriving DecidableEq, Repr

/-- Rust `Default for DecisionThresholds`. -/
def DecisionThresholds.default : DecisionThresholds :=
  { critical_thirst := 80
    high_thirst := 60
    critical_hunger := 70
    high_hunger := 50
    critical_tiredness := 85
    high_tiredness := 70 }

/-- Rust `UtilityWeights` (`src/decision/utility_maximizer.rs`). -/
structure UtilityWeights where
  survival : ℚ
  comfort : ℚ
  efficiency : ℚ
deriving DecidableEq, Repr

/-- Rust `Default for UtilityWeights`. -/
def UtilityWeights.default : UtilityWeights :=
  { survival := 2, comfort := 1, efficiency := 1/2 }

/-- Rust `UtilityMaximizer` (`src/decision/utility_maximizer.rs`). -/
structure UtilityMaximizer where
  thresholds : DecisionThresholds
  weights : UtilityWeights
  resource_search_radius : ℚ
deriving DecidableEq, Repr

/-- Rust `Default for UtilityMaximizer`. -/
def UtilityMaximizer.default : UtilityMaximizer :=
  { thresholds := DecisionThresholds.default
    weights := UtilityWeights.default
    resource_search_radius := 1000 }

/-- Rust `UtilityMaximizer::evaluate_seek_water`: returns `some utility`
(always `some`, mirroring the source's `Option` that is never `None`). -/
def UtilityMaximizer.evaluate_seek_water (um : UtilityMaximizer) (agent_id : AgentId)
    (thirst : ℚ) (wq : WorldQuery) : Option ℚ :=
  let urgency := thirst / 100
  let water_sources := wq.getNearbyResources agent_id "water" um.resource_search_radius
  match water_sources.head? with
  | some closest =>
      let distance_factor := max (1 - closest.distance / um.resource_search_radius) 0
      some (urgency * um.weights.survival + distance_factor * um.weights.efficiency)
  | none => some (urgency * um.weights.survival)

/-- The candidate food-type list chosen by diet in
`UtilityMaximizer::evaluate_seek_food`. -/
def foodItemsFor (species : Option SpeciesComponent) : List String :=
  match species with
  | some s =>
      match s.diet with
      | DietType.Herbivore preferred_plants =>
          if preferred_plants = [] then ["grass", "food"] else preferred_plants
      | DietType.Carnivore _ => ["rabbit_meat"]
      | DietType.Omnivore plants _ =>
          if plants = [] then ["grass", "food"] else plants
  | none => ["grass", "food"]

/-- The body of the `for food_type in &food_items` loop of
`evaluate_seek_food`: keep the best `(utility, item_type)` seen so far,
replacing only on strictly greater utility. -/
def foodFoldStep (um : UtilityMaximizer) (agent_id : AgentId) (urgency : ℚ)
    (wq : WorldQuery) (best : Option (ℚ × String)) (food_type : String) :
    Option (ℚ × String) :=
  match (wq.getNearbyResources agent_id food_type um.resource_search_radius).head? with
  | some closest =>
      let distance_factor := max (1 - closest.distance / um.resource_search_radius) 0
      let utility := urgency * um.weights.survival + distance_factor * um.weights.efficiency
      match best with
      | none => some (utility, food_type)
      | some b => if b.1 < utility then some (utility, food_type) else some b
  | none => best

/-- Rust `UtilityMaximizer::evaluate_seek_food`: returns `some (utility, item_type)`
(always `some`; the reason string, used only for the 1% diagnostic log,
is omitted). -/
def UtilityMaximizer.evaluate_seek_food (um : UtilityMaximizer) (agent_id : AgentId)
    (hunger : ℚ) (species : Option SpeciesComponent) (wq : WorldQuery) :
    Option (ℚ × String) :=
  let urgency := hunger / 100
  let food_items := foodItemsFor species
  let best_option := food_items.foldl (foodFoldStep um agent_id urgency wq) none
  match best_option with
  | some b => some b
  | none => some (urgency * um.weights.survival, food_items.headD "food")

/-- The candidate list built by `UtilityMaximizer::decide`, in evaluation
order: water, food, rest, then the always-present Wander with utility 0.1. -/
def UtilityMaximizer.buildUtilities (um : UtilityMaximizer) (needs : Needs)
    (species : Option SpeciesComponent) (wq : WorldQuery) (agent_id : AgentId) :
    List (Intent × ℚ) :=
  (if um.thresholds.high_thirst < needs.thirst then
      match um.evaluate_seek_water agent_id needs.thirst wq with
      | some utility => [(Intent.SeekItem "water" (needs.thirst / 100), utility)]
      | none => []
    else []) ++
  (if um.thresholds.high_hunger < needs.hunger then
      match um.evaluate_seek_food agent_id needs.hunger species wq with
      | some ut => [(Intent.SeekItem ut.2 (needs.hunger / 100), ut.1)]
      | none => []
    else []) ++
  (if um.thresholds.high_tiredness < needs.tiredness then
      [(Intent.Rest, needs.tiredness / 100 * um.weights.comfort)]
    else []) ++
  [(Intent.Wander, 1/10)]

/-- The comparator of `utilities.sort_by(|a, b| b.1.partial_cmp(&a.1))`:
descending by utility. -/
def candOrd (a b : Intent × ℚ) : Prop := b.2 ≤ a.2

instance : DecidableRel candOrd := fun a b => inferInstanceAs (Decidable (b.2 ≤ a.2))

instance : IsTotal (Intent × ℚ) candOrd := ⟨fun a b => le_total b.2 a.2⟩

instance : IsTrans (Intent × ℚ) candOrd := ⟨fun _ _ _ h1 h2 => le_trans h2 h1⟩

/-- The stable descending sort of the candidate list (Rust's `sort_by` is a
stable sort; any stable sort yields the same list, here insertion sort). -/
def sortCandidates (l : List (Intent × ℚ)) : List (Intent × ℚ) :=
  List.insertionSort candOrd l

/-- Rust `UtilityMaximizer::decide`. The two `expect` calls (missing `Needs`,
missing `Agent`) and the `utilities[0]` indexing are modelled by `Option`:
`none` is a panic. -/
def UtilityMaximizer.decide (um : UtilityMaximizer) (needsOpt : Option Needs)
    (agentOpt : Option Agent) (species : Option SpeciesComponent)
    (wq : WorldQuery) : Option DecisionOutput :=
  match needsOpt with
  | none => none
  | some needs =>
      match agentOpt with
      | none => none
      | some ag =>
          let utilities := um.buildUtilities needs species wq ag.id
          match (sortCandidates utilities).head? with
          | some best => some (DecisionOutput.Intent best.1)
          | none => none

/-! ### The `f32` level of `Needs::new`

`Needs::new` clamps each field with `v.max(MIN_NEEDS).min(MAX_NEEDS)` on
`f32`. To capture NaN and the infinities, an `f32` value is modelled as
`Option EReal`: `none` is NaN, `some ⊥` is `-∞`, `some ⊤` is `+∞`. -/

/-- An `f32` value: `none` models NaN, the extended reals model all other
values (infinities included). -/
def F32 : Type := Option EReal

/-- Rust `f32::max`: if one argument is NaN the other is returned,
otherwise the greater. -/
noncomputable def F32.fmax : F32 → F32 → F32
  | none, y => y
  | some a, none => some a
  | some a, some b => some (max a b)

/-- Rust `f32::min`: if one argument is NaN the other is returned,
otherwise the smaller. -/
noncomputable def F32.fmin : F32 → F32 → F32
  | none, y => y
  | some a, none => some a
  | some a, some b => some (min a b)

/-- The clamp `v.max(MIN_NEEDS).min(MAX_NEEDS)` of `Needs::new`, with
`MIN_NEEDS = 0.0` and `MAX_NEEDS = 100.0`. -/
noncomputable def F32.clampNeeds (v : F32) : F32 :=
  (v.fmax (some ((0 : ℝ) : EReal))).fmin (some ((100 : ℝ) : EReal))

/-- The `Needs` struct at the `f32` level, for `Needs::new`. -/
structure NeedsF where
  thirst : F32
  hunger : F32
  tiredness : F32

/-- Rust `Needs::new` (`src/agent/components.rs`), at the `f32` level. -/
noncomputable def NeedsF.new (thirst hunger tiredness : F32) : NeedsF :=
  { thirst := thirst.clampNeeds
    hunger := hunger.clampNeeds
    tiredness := tiredness.clampNeeds }

/-! ### Reputation subsystem

`f32` values of the reputation subsystem are modelled as `ℝ` because
`score_with_decay` uses the exponential function; `u64` ticks and `u32`
counts are modelled as `ℕ`. -/

/-- Rust `ReputationView` (`src/agent/components.rs`): a Beta(alpha, beta)
trust relationship. -/
structure ReputationView where
  alpha : ℝ
  beta : ℝ
  last_interaction_tick : ℕ
  interaction_count : ℕ

/-- Rust `ReputationView::new`: uniform prior (1, 1). -/
def ReputationView.new : ReputationView :=
  { alpha := 1, beta := 1, last_interaction_tick := 0, interaction_count := 0 }

/-- Rust `ReputationView::with_prior`: stores the given prior unchanged. -/
def ReputationView.with_prior (alpha beta : ℝ) : ReputationView :=
  { alpha := alpha, beta := beta, last_interaction_tick := 0, interaction_count := 0 }

/-- Rust `ReputationView::score` = `alpha / (alpha + beta)`. -/
noncomputable def ReputationView.score (v : ReputationView) : ℝ :=
  v.alpha / (v.alpha + v.beta)

/-- Rust `ReputationView::score_with_decay`: exponential decay toward 0.5;
`saturating_sub` on `u64` is truncated subtraction on `ℕ`. -/
noncomputable def ReputationView.score_with_decay (v : ReputationView)
    (current_tick : ℕ) (decay_rate : ℝ) : ℝ :=
  let ticks_since_interaction := current_tick - v.last_interaction_tick
  let decay_factor := Real.exp (-decay_rate * (ticks_since_interaction : ℝ))
  1/2 + (v.score - 1/2) * decay_factor

/-- Rust `ReputationView::update`: positive weight adds to alpha, negative
adds its absolute value to beta; tick and count always updated. -/
noncomputable def ReputationView.update (v : ReputationView)
    (outcome_weight : ℝ) (current_tick : ℕ) : ReputationView :=
  let v' :=
    if 0 < outcome_weight then { v with alpha := v.alpha + outcome_weight }
    else if outcome_weight < 0 then { v with beta := v.beta + |outcome_weight| }
    else v
  { v' with last_interaction_tick := current_tick,
            interaction_count := v.interaction_count + 1 }

/-- Rust `ReputationView::confidence` = `alpha + beta`. -/
noncomputable def ReputationView.confidence (v : ReputationView) : ℝ :=
  v.alpha + v.beta

/-- Rust `ReputationKnowledge` (`src/agent/components.rs`). The backing
`HashMap<AgentId, ReputationView>` is modelled as an association list
whose order stands for the unspecified iteration order. -/
structure ReputationKnowledge where
  first_hand : List (AgentId × ReputationView)
  trust_level : ℝ

/-- Lookup in the association list modelling the `HashMap`. -/
noncomputable def lookupView : List (AgentId × ReputationView) → AgentId → Option ReputationView
  | [], _ => none
  | (b, v) :: rest, a => if b = a then some v else lookupView rest a

/-- Rust `ReputationKnowledge::new`: default trust level 0.5. -/
noncomputable def ReputationKnowledge.new : ReputationKnowledge :=
  { first_hand := [], trust_level := 1/2 }

/-- Rust `ReputationKnowledge::get_score`: known agent's score, else the
default trust level. -/
noncomputable def ReputationKnowledge.get_score (rk : ReputationKnowledge)
    (agent : AgentId) : ℝ :=
  match lookupView rk.first_hand agent with
  | some view => view.score
  | none => rk.trust_level

/-- Rust `ReputationKnowledge::update_reputation`: `entry(agent).or_insert_with(new)`
then `update`. A present key is updated in place; an absent key is inserted
(position within the unordered map is irrelevant to lookups). -/
noncomputable def ReputationKnowledge.update_reputation (rk : ReputationKnowledge)
    (agent : AgentId) (outcome_weight : ℝ) (current_tick : ℕ) : ReputationKnowledge :=
  if (lookupView rk.first_hand agent).isSome then
    { rk with first_hand :=
        rk.first_hand.map fun p =>
          if p.1 = agent then (p.1, p.2.update outcome_weight current_tick) else p }
  else
    { rk with first_hand :=
        rk.first_hand ++ [(agent, ReputationView.new.update outcome_weight current_tick)] }

/-- Rust `ReputationKnowledge::is_trusted`: score at or above the threshold. -/
noncomputable def ReputationKnowledge.is_trusted (rk : ReputationKnowledge)
    (agent : AgentId) (threshold : ℝ) : Prop :=
  threshold ≤ rk.get_score agent

/-- The comparator of `scores.sort_by(|a, b| b.1.partial_cmp(&a.1))` in
`get_most_trusted`: descending by score, no tie-break. -/
def scoreOrd (a b : AgentId × ℝ) : Prop := b.2 ≤ a.2

noncomputable instance : DecidableRel scoreOrd :=
  fun a b => inferInstanceAs (Decidable (b.2 ≤ a.2))

instance : IsTotal (AgentId × ℝ) scoreOrd := ⟨fun a b => le_total b.2 a.2⟩

instance : IsTrans (AgentId × ℝ) scoreOrd := ⟨fun _ _ _ h1 h2 => le_trans h2 h1⟩

/-- Rust `ReputationKnowledge::get_most_trusted`: collect `(id, score)` pairs in
iteration order, stable-sort by score descending, truncate to `max_count`. -/
noncomputable def ReputationKnowledge.get_most_trusted (rk : ReputationKnowledge)
    (max_count : ℕ) : List (AgentId × ℝ) :=
  ((rk.first_hand.map fun p => (p.1, p.2.score)).insertionSort scoreOrd).take max_count

/-- Rust `Outcome` enum (`src/events/mod.rs`). -/
inductive Outcome where
  | Positive : ℝ → Outcome
  | Negative : ℝ → Outcome
  | Neutral : Outcome

/-- Rust `Outcome::weight`. -/
def Outcome.weight : Outcome → ℝ
  | Outcome.Positive w => w
  | Outcome.Negative w => -w
  | Outcome.Neutral => 0

/-- Rust `TransactionEvent` (`src/events/mod.rs`). -/
structure TransactionEvent where
  agent1 : AgentId
  agent2 : AgentId
  item : Option String
  price : Option ℝ
  outcome : Outcome
  tick : ℕ

/-- The slice of the specs `World` the two reputation systems touch:
entities in join order, the `Agent` storage, the `ReputationKnowledge`
storage, and the `TransactionLog` resource (`events: Vec<TransactionEvent>`). -/
structure WorldState where
  entities : List ℕ
  agentOf : ℕ → Option Agent
  repOf : ℕ → Option ReputationKnowledge
  log : List TransactionEvent

/-- The `(&entities, &agents).join()` iteration: entities paired with their
`Agent` component's id, in entity order. -/
def joinList (w : WorldState) : List (ℕ × AgentId) :=
  w.entities.filterMap fun e => (w.agentOf e).map fun ag => (e, ag.id)

/-- The entity-search loop of `ReputationUpdateSystem::run`: assign on every
id match, break once both found. -/
def findEntitiesAux (a1 a2 : AgentId) :
    List (ℕ × AgentId) → Option ℕ → Option ℕ → Option ℕ × Option ℕ
  | [], r1, r2 => (r1, r2)
  | (e, id) :: rest, r1, r2 =>
      let r1' := if id = a1 then some e else r1
      let r2' := if id = a2 then some e else r2
      if r1'.isSome ∧ r2'.isSome then (r1', r2')
      else findEntitiesAux a1 a2 rest r1' r2'

/-- Resolve the two participants of an event in the join list. -/
def findEntities (l : List (ℕ × AgentId)) (a1 a2 : AgentId) :
    Option ℕ × Option ℕ :=
  findEntitiesAux a1 a2 l none none

/-- Write one entity's `ReputationKnowledge` back into the storage. -/
def WorldState.setRep (w : WorldState) (e : ℕ) (rk : ReputationKnowledge) :
    WorldState :=
  { w with repOf := fun e' => if e' = e then some rk else w.repOf e' }

/-- Per-event body of `ReputationUpdateSystem::run`: resolve both
participants, then update each side whose entity and reputation storage
resolve, skipping the other silently. -/
noncomputable def processEvent (w : WorldState) (ev : TransactionEvent) : WorldState :=
  let weight := ev.outcome.weight
  let found := findEntities (joinList w) ev.agent1 ev.agent2
  let w1 :=
    match found.1 with
    | some e1 =>
        match w.repOf e1 with
        | some rep1 => w.setRep e1 (rep1.update_reputation ev.agent2 weight ev.tick)
        | none => w
    | none => w
  match found.2 with
  | some e2 =>
      match w1.repOf e2 with
      | some rep2 => w1.setRep e2 (rep2.update_reputation ev.agent1 weight ev.tick)
      | none => w1
  | none => w1

/-- Rust `ReputationUpdateSystem::run`: drain the whole log, then process the
drained events in queue order. -/
noncomputable def ReputationUpdateSystem.run (w : WorldState) : WorldState :=
  let events := w.log
  events.foldl processEvent { w with log := [] }

/-- Per-view body of `ReputationDecaySystem::run`: compute the decayed
score, and rebalance only when enough time has passed or alpha+beta has
grown too large. -/
noncomputable def decayStep (decay_rate : ℝ) (current_tick : ℕ)
    (view : ReputationView) : ReputationView :=
  let current_score := view.score_with_decay current_tick decay_rate
  let ticks_since := current_tick - view.last_interaction_tick
  if 10000 < ticks_since ∨ 1000 < view.alpha + view.beta then
    let total := view.alpha + view.beta
    let new_alpha := current_score * total
    let new_beta := (1 - current_score) * total
    let scale := 10 / max total 10
    { view with
        alpha := new_alpha * scale
        beta := new_beta * scale
        last_interaction_tick := current_tick }
  else view

/-- Rust `ReputationDecaySystem::run` restricted to one agent's store: every
first-hand view goes through `decayStep`. -/
noncomputable def ReputationDecaySystem.runStore (decay_rate : ℝ) (current_tick : ℕ)
    (rk : ReputationKnowledge) : ReputationKnowledge :=
  { rk with first_hand :=
      rk.first_hand.map fun p => (p.1, decayStep decay_rate current_tick p.2) }

/-! ### Definitions taken from the spec's words (for refinement claims) -/

/-- From the spec's words: "choose the candidate with strictly maximal
utility; ties resolve to whichever candidate was evaluated first".
Returns the first element of the list attaining the maximal utility. -/
def firstMax : List (Intent × ℚ) → Option (Intent × ℚ)
  | [] => none
  | c :: cs =>
      match firstMax cs with
      | none => some c
      | some d => if c.2 < d.2 then some d else some c

/-- From the spec's words: the selected intent, `Wander` on an empty
candidate list (which never arises). -/
def chooseFirstMaxUtility (l : List (Intent × ℚ)) : Intent :=
  match firstMax l with
  | some c => c.1
  | none => Intent.Wander

/-- From the spec's words for claim C6: the fully deterministic sort key
"(score descending, agent-id ascending)". -/
def specScoreOrd (a b : AgentId × ℝ) : Prop :=
  b.2 < a.2 ∨ (a.2 = b.2 ∧ a.1 ≤ b.1)

noncomputable instance : DecidableRel specScoreOrd := fun _ _ => by
  unfold specScoreOrd; infer_instance

instance : IsTotal (AgentId × ℝ) specScoreOrd :=
  ⟨fun a b => by
    rcases lt_trichotomy a.2 b.2 with h | h | h
    · exact Or.inr (Or.inl h)
    · rcases le_total a.1 b.1 with h' | h'
      · exact Or.inl (Or.inr ⟨h, h'⟩)
      · exact Or.inr (Or.inr ⟨h.symm, h'⟩)
    · exact Or.inl (Or.inl h)⟩

instance : IsTrans (AgentId × ℝ) specScoreOrd :=
  ⟨fun a b c hab hbc => by
    rcases hab with h1 | ⟨e1, l1⟩
    · rcases hbc with h2 | ⟨e2, l2⟩
      · exact Or.inl (h2.trans h1)
      · exact Or.inl (e2 ▸ h1)
    · rcases hbc with h2 | ⟨e2, l2⟩
      · exact Or.inl (e1 ▸ h2)
      · exact Or.inr ⟨e1.trans e2, l1.trans l2⟩⟩

/-- From the spec's words for claim C6: `get_most_trusted` as the spec
states it, sorting by the deterministic key (score desc, id asc). -/
noncomputable def getMostTrustedSpec (rk : ReputationKnowledge)
    (max_count : ℕ) : List (AgentId × ℝ) :=
  ((rk.first_hand.map fun p => (p.1, p.2.score)).insertionSort specScoreOrd).take max_count

/-! ### Auxiliary definitions used by the theorems and their witnesses -/

/-- Iterated `ReputationView::update` with a fixed weight and tick:
`iterUpdate v w t n` is the view after `n` successive updates. -/
noncomputable def iterUpdate (v : ReputationView) (w : ℝ) (t : ℕ) : ℕ → ReputationView
  | 0 => v
  | n + 1 => (iterUpdate v w t n).update w t

/-- A host world with no resources and no agents (every query empty). -/
def emptyWorldQuery : WorldQuery :=
  { getNearbyAgents := fun _ _ => []
    getNearbyResources := fun _ _ _ => []
    canInteract := fun _ _ => false }

/-- A host world with a water source and a rabbit-meat source at distance
10, and nothing else. -/
def waterMeatWorldQuery : WorldQuery :=
  { getNearbyAgents := fun _ _ => []
    getNearbyResources := fun _ ty _ =>
      if ty = "water" then [{ x := 0, y := 0, distance := 10 }]
      else if ty = "rabbit_meat" then [{ x := 0, y := 0, distance := 10 }]
      else []
    canInteract := fun _ _ => false }

/-- A host world where only a rabbit-meat source is nearby. -/
def meatOnlyWorldQuery : WorldQuery :=
  { getNearbyAgents := fun _ _ => []
    getNearbyResources := fun _ ty _ =>
      if ty = "rabbit_meat" then [{ x := 0, y := 0, distance := 10 }] else []
    canInteract := fun _ _ => false }

/-- Concrete two-agent world: entities 10 and 20 carry agents 1 and 2,
both with fresh reputation stores, and one positive event is queued. -/
noncomputable def twoAgentWorld : WorldState :=
  { entities := [10, 20]
    agentOf := fun e =>
      if e = 10 then some { id := 1 } else if e = 20 then some { id := 2 } else none
    repOf := fun e =>
      if e = 10 then some ReputationKnowledge.new
      else if e = 20 then some ReputationKnowledge.new else none
    log := [{ agent1 := 1, agent2 := 2, item := none, price := none,
              outcome := Outcome.Positive 1, tick := 100 }] }

/-- Concrete world where the event's first participant (agent 1) has no
entity at all; only agent 2 is present, on entity 20. -/
noncomputable def oneAgentWorld : WorldState :=
  { entities := [20]
    agentOf := fun e => if e = 20 then some { id := 2 } else none
    repOf := fun e => if e = 20 then some ReputationKnowledge.new else none
    log := [{ agent1 := 1, agent2 := 2, item := none, price := none,
              outcome := Outcome.Positive 1, tick := 100 }] }

/-- Concrete world mirroring `oneAgentWorld`: the event's second
participant (agent 2) has no entity; only agent 1 is present, on
entity 10. -/
noncomputable def oneAgentFirstWorld : WorldState :=
  { entities := [10]
    agentOf := fun e => if e = 10 then some { id := 1 } else none
    repOf := fun e => if e = 10 then some ReputationKnowledge.new else none
    log := [{ agent1 := 1, agent2 := 2, item := none, price := none,
              outcome := Outcome.Positive 1, tick := 100 }] }

/-- A reputation store whose backing map holds fresh views of agents 1 and
2, iterated in the order 1 then 2. -/
noncomputable def storeOrder12 : ReputationKnowledge :=
  { first_hand := [(1, ReputationView.new), (2, ReputationView.new)], trust_level := 1/2 }

/-- The same mapping as `storeOrder12` but iterated in the order 2 then 1:
the two stores are equal as maps and differ only in iteration order. -/
noncomputable def storeOrder21 : ReputationKnowledge :=
  { first_hand := [(2, ReputationView.new), (1, ReputationView.new)], trust_level := 1/2 }

/-! ## Theorems -/

/-- The clamp of `Needs::new` always yields a non-NaN value in [0, 100],
and maps NaN to 0. -/
theorem clampNeeds_mem (v : F32) :
    ∃ r : EReal, v.clampNeeds = some r ∧ ((0 : ℝ) : EReal) ≤ r ∧
      r ≤ ((100 : ℝ) : EReal) ∧ (v = none → r = ((0 : ℝ) : EReal)) := by
  have h100 : ((0 : ℝ) : EReal) ≤ ((100 : ℝ) : EReal) :=
    EReal.coe_le_coe_iff.mpr (by norm_num)
  cases v with
  | none =>
      refine ⟨min ((0 : ℝ) : EReal) ((100 : ℝ) : EReal), rfl, ?_, min_le_right _ _, ?_⟩
      · exact le_min le_rfl h100
      · exact fun _ => min_eq_left h100
  | some a =>
      refine ⟨min (max a ((0 : ℝ) : EReal)) ((100 : ℝ) : EReal), rfl, ?_,
        min_le_right _ _, ?_⟩
      · exact le_min (le_max_right _ _) h100
      · intro h; exact absurd h (Option.some_ne_none a)

/-- C10: for every input triple, including NaN (`none`) and infinite
values, `Needs::new` produces fields that are non-NaN values in [0, 100];
in particular a NaN input field is mapped to 0.0, because Rust's `max`
with the lower bound discards the NaN. -/
theorem needs_new_clamps_all_inputs (t h ti : F32) :
    (∃ r, (NeedsF.new t h ti).thirst = some r ∧ ((0 : ℝ) : EReal) ≤ r ∧
        r ≤ ((100 : ℝ) : EReal)) ∧
    (∃ r, (NeedsF.new t h ti).hunger = some r ∧ ((0 : ℝ) : EReal) ≤ r ∧
        r ≤ ((100 : ℝ) : EReal)) ∧
    (∃ r, (NeedsF.new t h ti).tiredness = some r ∧ ((0 : ℝ) : EReal) ≤ r ∧
        r ≤ ((100 : ℝ) : EReal)) ∧
    (t = none → (NeedsF.new t h ti).thirst = some ((0 : ℝ) : EReal)) ∧
    (h = none → (NeedsF.new t h ti).hunger = some ((0 : ℝ) : EReal)) ∧
    (ti = none → (NeedsF.new t h ti).tiredness = some ((0 : ℝ) : EReal)) := by
  obtain ⟨rt, et, lt0, lt1, nt⟩ := clampNeeds_mem t
  obtain ⟨rh, eh, lh0, lh1, nh⟩ := clampNeeds_mem h
  obtain ⟨rti, eti, lti0, lti1, nti⟩ := clampNeeds_mem ti
  refine ⟨⟨rt, et, lt0, lt1⟩, ⟨rh, eh, lh0, lh1⟩, ⟨rti, eti, lti0, lti1⟩,
    fun hn => ?_, fun hn => ?_, fun hn => ?_⟩
  · show t.clampNeeds = _; rw [et, nt hn]
  · show h.clampNeeds = _; rw [eh, nh hn]
  · show ti.clampNeeds = _; rw [eti, nti hn]

/-- Witness for C10 at a concrete input: NaN thirst clamps to 0. -/
theorem needs_new_clamps_all_inputs_witness :
    (NeedsF.new none (some ((150 : ℝ) : EReal)) (some ⊤)).thirst =
      some ((0 : ℝ) : EReal) :=
  (needs_new_clamps_all_inputs none (some ((150 : ℝ) : EReal)) (some ⊤)).2.2.2.1 rfl

/-- C9: an entity with `Needs` but without the `Agent` component makes
`UtilityMaximizer::decide` panic (modelled as `none`), a precondition in
addition to the documented `Needs` requirement. -/
theorem decide_panics_without_agent_component (um : UtilityMaximizer) (needs : Needs)
    (species : Option SpeciesComponent) (wq : WorldQuery) :
    um.decide (some needs) none species wq = none := rfl

/-- The score of a view with strictly positive parameters is in (0, 1). -/
theorem score_mem_Ioo (v : ReputationView) (ha : 0 < v.alpha) (hb : 0 < v.beta) :
    0 < v.score ∧ v.score < 1 := by
  unfold ReputationView.score
  refine ⟨div_pos ha (by linarith), ?_⟩
  rw [div_lt_one (by linarith)]
  linarith

/-- The alpha component after `ReputationView::update`. -/
theorem update_alpha (v : ReputationView) (w : ℝ) (t : ℕ) :
    (v.update w t).alpha = if 0 < w then v.alpha + w else v.alpha := by
  unfold ReputationView.update
  by_cases h1 : 0 < w
  · simp [h1]
  · by_cases h2 : w < 0 <;> simp [h1, h2]

/-- The beta component after `ReputationView::update`. -/
theorem update_beta (v : ReputationView) (w : ℝ) (t : ℕ) :
    (v.update w t).beta = if w < 0 then v.beta + |w| else v.beta := by
  unfold ReputationView.update
  by_cases h1 : 0 < w
  · simp [h1, asymm h1]
  · by_cases h2 : w < 0 <;> simp [h1, h2]

/-- For a nonnegative decay rate, the decayed score of a positive view
stays strictly inside (0, 1). -/
theorem score_with_decay_mem_Ioo (v : ReputationView) (tick : ℕ) (rate : ℝ)
    (ha : 0 < v.alpha) (hb : 0 < v.beta) (hr : 0 ≤ rate) :
    0 < v.score_with_decay tick rate ∧ v.score_with_decay tick rate < 1 := by
  obtain ⟨hs0, hs1⟩ := score_mem_Ioo v ha hb
  unfold ReputationView.score_with_decay
  set c : ℝ := ((tick - v.last_interaction_tick : ℕ) : ℝ) with hc
  have hcn : 0 ≤ c := Nat.cast_nonneg _
  set f : ℝ := Real.exp (-rate * c) with hf
  have hf0 : 0 < f := Real.exp_pos _
  have hf1 : f ≤ 1 := by
    rw [hf, show (1 : ℝ) = Real.exp 0 by rw [Real.exp_zero]]
    exact Real.exp_le_exp.mpr (by nlinarith)
  constructor
  · rcases le_or_lt (1/2) v.score with hs | hs
    · nlinarith [mul_nonneg (by linarith : (0 : ℝ) ≤ v.score - 1/2) hf0.le]
    · nlinarith [mul_nonneg (by linarith : (0 : ℝ) ≤ 1/2 - v.score)
        (by linarith : (0 : ℝ) ≤ 1 - f)]
  · rcases le_or_lt v.score (1/2) with hs | hs
    · nlinarith [mul_nonneg (by linarith : (0 : ℝ) ≤ 1/2 - v.score) hf0.le]
    · nlinarith [mul_nonneg (by linarith : (0 : ℝ) ≤ v.score - 1/2)
        (by linarith : (0 : ℝ) ≤ 1 - f)]

/-- The rebalance of `ReputationDecaySystem` keeps alpha and beta strictly
positive, for positive views and nonnegative decay rate. -/
theorem decayStep_pos (rate : ℝ) (tick : ℕ) (v : ReputationView)
    (ha : 0 < v.alpha) (hb : 0 < v.beta) (hr : 0 ≤ rate) :
    0 < (decayStep rate tick v).alpha ∧ 0 < (decayStep rate tick v).beta := by
  obtain ⟨hd0, hd1⟩ := score_with_decay_mem_Ioo v tick rate ha hb hr
  unfold decayStep
  dsimp only
  split_ifs with hc
  · have htot : 0 < v.alpha + v.beta := by linarith
    have hscale : 0 < 10 / max (v.alpha + v.beta) 10 :=
      div_pos (by norm_num) (lt_of_lt_of_le (by norm_num) (le_max_right _ _))
    constructor
    · exact mul_pos (mul_pos hd0 htot) hscale
    · exact mul_pos (mul_pos (by linarith) htot) hscale
  · exact ⟨ha, hb⟩

/-- C5 counterexample: `ReputationView::with_prior` stores its arguments
unchecked, so a view can be constructed with alpha = 0 < 1, refuting the
claimed construction invariant alpha ≥ 1. -/
theorem with_prior_breaks_min_prior :
    (ReputationView.with_prior 0 0).alpha = 0 ∧
      ¬ (1 ≤ (ReputationView.with_prior 0 0).alpha ∧
         1 ≤ (ReputationView.with_prior 0 0).beta) := by
  constructor
  · rfl
  · intro hcontra
    have := hcontra.1
    rw [ReputationView.with_prior] at this
    norm_num at this

/-- C5 (amended): `ReputationView::new` constructs alpha = beta = 1;
`with_prior` stores arbitrary values unchecked; for every view with
strictly positive alpha and beta, `update` and the decay rebalance (for
nonnegative decay rate) preserve strict positivity, and `score()` is
always defined in (0, 1). -/
theorem reputation_positivity :
    (ReputationView.new.alpha = 1 ∧ ReputationView.new.beta = 1) ∧
    (∀ (v : ReputationView) (w : ℝ) (t : ℕ), 0 < v.alpha → 0 < v.beta →
        0 < (v.update w t).alpha ∧ 0 < (v.update w t).beta) ∧
    (∀ (v : ReputationView) (rate : ℝ) (tick : ℕ),
        0 < v.alpha → 0 < v.beta → 0 ≤ rate →
        0 < (decayStep rate tick v).alpha ∧ 0 < (decayStep rate tick v).beta) ∧
    (∀ v : ReputationView, 0 < v.alpha → 0 < v.beta →
        0 < v.score ∧ v.score < 1) := by
  refine ⟨⟨rfl, rfl⟩, ?_, ?_, ?_⟩
  · intro v w t ha hb
    rw [update_alpha, update_beta]
    constructor
    · split_ifs with h
      · linarith
      · exact ha
    · split_ifs with h
      · have : 0 ≤ |w| := abs_nonneg w
        linarith
      · exact hb
  · intro v rate tick ha hb hr
    exact decayStep_pos rate tick v ha hb hr
  · intro v ha hb
    exact score_mem_Ioo v ha hb

/-- Witness for C5 at concrete inputs. -/
theorem reputation_positivity_witness :
    (0 < (ReputationView.new.update 1 5).alpha ∧
      0 < (ReputationView.new.update 1 5).beta) ∧
    (0 < (decayStep 0 20000 (ReputationView.with_prior 500 5)).alpha ∧
      0 < (decayStep 0 20000 (ReputationView.with_prior 500 5)).beta) ∧
    (0 < ReputationView.new.score ∧ ReputationView.new.score < 1) :=
  ⟨reputation_positivity.2.1 ReputationView.new 1 5 (by norm_num [ReputationView.new])
      (by norm_num [ReputationView.new]),
   reputation_positivity.2.2.1 (ReputationView.with_prior 500 5) 0 20000
      (by norm_num [ReputationView.with_prior]) (by norm_num [ReputationView.with_prior])
      le_rfl,
   reputation_positivity.2.2.2 ReputationView.new (by norm_num [ReputationView.new])
      (by norm_num [ReputationView.new])⟩

/-- Repeated positive updates accumulate weight in alpha and leave beta
unchanged. -/
theorem iterUpdate_alpha_beta (v : ReputationView) (w : ℝ) (t : ℕ) (hw : 0 < w) :
    ∀ n : ℕ, (iterUpdate v w t n).alpha = v.alpha + n * w ∧
      (iterUpdate v w t n).beta = v.beta := by
  intro n
  induction n with
  | zero => simp [iterUpdate]
  | succ n ih =>
      have hA := ih.1
      have hB := ih.2
      constructor
      · show ((iterUpdate v w t n).update w t).alpha = _
        rw [update_alpha, if_pos hw, hA]
        push_cast
        ring
      · show ((iterUpdate v w t n).update w t).beta = _
        rw [update_beta, if_neg (asymm hw), hB]

/-- C8: for strictly positive alpha and beta, a positive-weight update
strictly increases the score, a negative-weight update strictly decreases
it, and repeated positive updates approach but never reach 1.0. -/
theorem update_monotone_score (v : ReputationView) (w : ℝ) (t : ℕ)
    (ha : 0 < v.alpha) (hb : 0 < v.beta) :
    (0 < w → v.score < (v.update w t).score) ∧
    (w < 0 → (v.update w t).score < v.score) ∧
    (0 < w → ∀ n : ℕ, (iterUpdate v w t n).score < 1) ∧
    (0 < w → ∀ ε : ℝ, 0 < ε →
        ∃ N : ℕ, ∀ n, N ≤ n → 1 - ε < (iterUpdate v w t n).score) := by
  refine ⟨?_, ?_, ?_, ?_⟩
  · intro hw
    unfold ReputationView.score
    rw [update_alpha, update_beta, if_pos hw, if_neg (asymm hw)]
    rw [div_lt_div_iff₀ (by linarith) (by linarith)]
    nlinarith [mul_pos hw hb]
  · intro hw
    unfold ReputationView.score
    rw [update_alpha, update_beta, if_neg (by linarith), if_pos hw]
    have habs : 0 < |w| := abs_pos.mpr (ne_of_lt hw)
    exact div_lt_div_of_pos_left ha (by linarith) (by linarith)
  · intro hw n
    obtain ⟨hA, hB⟩ := iterUpdate_alpha_beta v w t hw n
    unfold ReputationView.score
    rw [hA, hB]
    have hnw : (0 : ℝ) ≤ n * w := mul_nonneg (Nat.cast_nonneg n) hw.le
    rw [div_lt_one (by linarith)]
    linarith
  · intro hw ε hε
    obtain ⟨N, hN⟩ := exists_nat_gt ((v.beta / ε - v.alpha - v.beta) / w)
    refine ⟨N, fun n hn => ?_⟩
    obtain ⟨hA, hB⟩ := iterUpdate_alpha_beta v w t hw n
    unfold ReputationView.score
    rw [hA, hB]
    have hcast : (N : ℝ) ≤ n := Nat.cast_le.mpr hn
    have hNn : (v.beta / ε - v.alpha - v.beta) / w < (n : ℝ) := lt_of_lt_of_le hN hcast
    have hkey : v.beta / ε - v.alpha - v.beta < n * w := by
      rw [div_lt_iff₀ hw] at hNn
      linarith
    have hDpos : (0 : ℝ) < v.alpha + n * w + v.beta := by
      have : 0 < v.beta / ε := div_pos hb hε
      linarith
    have hlt : v.beta < ε * (v.alpha + n * w + v.beta) := by
      have h1 : v.beta / ε < v.alpha + n * w + v.beta := by linarith
      rw [div_lt_iff₀ hε] at h1
      linarith [h1]
    have hgoal : (1 - ε) * (v.alpha + ↑n * w + v.beta) < v.alpha + ↑n * w := by
      nlinarith [hlt]
    rw [show v.alpha + ↑n * w + v.beta = v.alpha + ↑n * w + v.beta from rfl] at hgoal
    rw [lt_div_iff₀ (by linarith : (0:ℝ) < v.alpha + ↑n * w + v.beta)]
    linarith [hgoal]

/-- Witness for C8 at concrete inputs. -/
theorem update_monotone_score_witness :
    ReputationView.new.score < (ReputationView.new.update 1 0).score ∧
    (ReputationView.new.update (-1) 0).score < ReputationView.new.score ∧
    (iterUpdate ReputationView.new 1 0 3).score < 1 ∧
    ∃ N : ℕ, ∀ n, N ≤ n → 1 - 1/100 < (iterUpdate ReputationView.new 1 0 n).score := by
  have hpos : (0 : ℝ) < ReputationView.new.alpha := by norm_num [ReputationView.new]
  have hpos' : (0 : ℝ) < ReputationView.new.beta := by norm_num [ReputationView.new]
  have h1 := update_monotone_score ReputationView.new 1 0 hpos hpos'
  have h2 := update_monotone_score ReputationView.new (-1) 0 hpos hpos'
  exact ⟨h1.1 (by norm_num), h2.2.1 (by norm_num), h1.2.2.1 (by norm_num) 3,
    h1.2.2.2 (by norm_num) (1/100) (by norm_num)⟩

/-- A total of mass rescaled by `10 / max total 10` is at most 10. -/
theorem total_scale_le (T : ℝ) (h : 0 < T) : T * (10 / max T 10) ≤ 10 := by
  rcases le_or_lt T 10 with hT | hT
  · rw [max_eq_right hT]
    norm_num
    linarith
  · rw [max_eq_left hT.le, mul_comm, div_mul_cancel₀]
    exact ne_of_gt h

/-- C4: in a `ReputationDecaySystem` pass, a view is rebalanced exactly
when `current_tick - last_interaction_tick > 10000` or `alpha+beta > 1000`
(views not meeting the condition are unchanged); after rebalancing
`alpha+beta ≤ 10`, the new `score()` equals the pre-rebalance
`score_with_decay` value exactly in real arithmetic, and
`last_interaction_tick` is set to the current tick; the system pass sends
every stored view through this per-view step. -/
theorem decay_rebalance_exact (rate : ℝ) (tick : ℕ) (v : ReputationView)
    (hpos : 0 < v.alpha + v.beta) :
    (¬ (10000 < tick - v.last_interaction_tick ∨ 1000 < v.alpha + v.beta) →
        decayStep rate tick v = v) ∧
    ((10000 < tick - v.last_interaction_tick ∨ 1000 < v.alpha + v.beta) →
        (decayStep rate tick v).alpha + (decayStep rate tick v).beta ≤ 10 ∧
        (decayStep rate tick v).score = v.score_with_decay tick rate ∧
        (decayStep rate tick v).last_interaction_tick = tick) ∧
    (∀ rk : ReputationKnowledge,
        (ReputationDecaySystem.runStore rate tick rk).first_hand =
          rk.first_hand.map fun p => (p.1, decayStep rate tick p.2)) := by
  refine ⟨?_, ?_, fun rk => rfl⟩
  · intro hc
    unfold decayStep
    dsimp only
    rw [if_neg hc]
  · intro hc
    unfold decayStep
    dsimp only
    rw [if_pos hc]
    have hscale : 0 < 10 / max (v.alpha + v.beta) 10 :=
      div_pos (by norm_num) (lt_of_lt_of_le (by norm_num) (le_max_right _ _))
    refine ⟨?_, ?_, rfl⟩
    · show v.score_with_decay tick rate * (v.alpha + v.beta) * (10 / max (v.alpha + v.beta) 10)
        + (1 - v.score_with_decay tick rate) * (v.alpha + v.beta) *
          (10 / max (v.alpha + v.beta) 10) ≤ 10
      have hsum : v.score_with_decay tick rate * (v.alpha + v.beta) *
            (10 / max (v.alpha + v.beta) 10)
          + (1 - v.score_with_decay tick rate) * (v.alpha + v.beta) *
            (10 / max (v.alpha + v.beta) 10)
          = (v.alpha + v.beta) * (10 / max (v.alpha + v.beta) 10) := by ring
      rw [hsum]
      exact total_scale_le _ hpos
    · show (v.score_with_decay tick rate * (v.alpha + v.beta) *
          (10 / max (v.alpha + v.beta) 10)) /
        (v.score_with_decay tick rate * (v.alpha + v.beta) *
            (10 / max (v.alpha + v.beta) 10)
          + (1 - v.score_with_decay tick rate) * (v.alpha + v.beta) *
            (10 / max (v.alpha + v.beta) 10)) = v.score_with_decay tick rate
      have hsum : v.score_with_decay tick rate * (v.alpha + v.beta) *
            (10 / max (v.alpha + v.beta) 10)
          + (1 - v.score_with_decay tick rate) * (v.alpha + v.beta) *
            (10 / max (v.alpha + v.beta) 10)
          = (v.alpha + v.beta) * (10 / max (v.alpha + v.beta) 10) := by ring
      rw [hsum]
      have hts : (v.alpha + v.beta) * (10 / max (v.alpha + v.beta) 10) ≠ 0 :=
        (mul_pos hpos hscale).ne'
      rw [show v.score_with_decay tick rate * (v.alpha + v.beta) *
            (10 / max (v.alpha + v.beta) 10)
          = v.score_with_decay tick rate *
            ((v.alpha + v.beta) * (10 / max (v.alpha + v.beta) 10)) from by ring]
      exact mul_div_cancel_right₀ _ hts

/-- Witness for C4 at the spec's rebalance scenario: alpha = 500, beta = 5,
elapsed 20000 ticks, decay rate 0.0001. -/
theorem decay_rebalance_exact_witness :
    (decayStep (1/10000) 20000 (ReputationView.with_prior 500 5)).alpha +
      (decayStep (1/10000) 20000 (ReputationView.with_prior 500 5)).beta ≤ 10 ∧
    (decayStep (1/10000) 20000 (ReputationView.with_prior 500 5)).score =
      (ReputationView.with_prior 500 5).score_with_decay 20000 (1/10000) ∧
    (decayStep (1/10000) 20000 (ReputationView.with_prior 500 5)).last_interaction_tick
      = 20000 :=
  (decay_rebalance_exact (1/10000) 20000 (ReputationView.with_prior 500 5)
      (by norm_num [ReputationView.with_prior])).2.1
    (Or.inl (by norm_num [ReputationView.with_prior]))

/-- Mapping an update over the entries with a given key commutes with
lookup. -/
theorem lookupView_map_update (a : AgentId) (f : ReputationView → ReputationView) :
    ∀ l : List (AgentId × ReputationView),
      lookupView (l.map fun p => if p.1 = a then (p.1, f p.2) else p) a =
        (lookupView l a).map f := by
  intro l
  induction l with
  | nil => rfl
  | cons p rest ih =>
      obtain ⟨b, v⟩ := p
      rw [List.map_cons]
      dsimp only
      by_cases hb : b = a
      · rw [if_pos hb]
        simp only [lookupView, if_pos hb, ih, Option.map_some']
      · rw [if_neg hb]
        simp only [lookupView, if_neg hb, ih]

/-- Appending a fresh binding at the end is found by lookup when the key
was absent. -/
theorem lookupView_append_absent (a : AgentId) (x : ReputationView) :
    ∀ l : List (AgentId × ReputationView), lookupView l a = none →
      lookupView (l ++ [(a, x)]) a = some x := by
  intro l
  induction l with
  | nil => intro _; simp [lookupView]
  | cons p rest ih =>
      obtain ⟨b, v⟩ := p
      intro h
      by_cases hb : b = a
      · rw [lookupView, if_pos hb] at h
        exact absurd h (Option.some_ne_none v)
      · rw [lookupView, if_neg hb] at h
        rw [List.cons_append, lookupView, if_neg hb]
        exact ih h

/-- Characterisation of `update_reputation`: the view stored for the
updated agent is the previous view (or a fresh uniform prior) updated. -/
theorem update_reputation_lookup (rk : ReputationKnowledge) (a : AgentId)
    (w : ℝ) (t : ℕ) :
    lookupView (rk.update_reputation a w t).first_hand a =
      some (((lookupView rk.first_hand a).getD ReputationView.new).update w t) := by
  unfold ReputationKnowledge.update_reputation
  cases h : lookupView rk.first_hand a with
  | none =>
      simp only [h, Option.isSome_none, Bool.false_eq_true, if_false,
        Option.getD_none]
      exact lookupView_append_absent a _ rk.first_hand h
  | some v =>
      simp only [h, Option.isSome_some, if_true, Option.getD_some]
      rw [lookupView_map_update a (fun view => view.update w t) rk.first_hand, h,
        Option.map_some']

/-- Both sides of a symmetric update see the same alpha and beta deltas,
whatever the starting views. -/
theorem update_deltas (w : ℝ) (t : ℕ) (v1 v2 : ReputationView) :
    (v1.update w t).alpha - v1.alpha = (v2.update w t).alpha - v2.alpha ∧
    (v1.update w t).beta - v1.beta = (v2.update w t).beta - v2.beta := by
  rw [update_alpha, update_alpha, update_beta, update_beta]
  constructor <;> split_ifs <;> ring

/-- A first component found by the entity-search loop either came in as
the accumulator or is an entity of the join list carrying the first id. -/
theorem findEntitiesAux_fst (a1 a2 : AgentId) :
    ∀ (l : List (ℕ × AgentId)) (r1 r2 : Option ℕ) (e : ℕ),
      (findEntitiesAux a1 a2 l r1 r2).1 = some e → r1 = some e ∨ (e, a1) ∈ l := by
  intro l
  induction l with
  | nil => intro r1 r2 e h; exact Or.inl h
  | cons p rest ih =>
      intro r1 r2 e h
      obtain ⟨ep, idp⟩ := p
      unfold findEntitiesAux at h
      dsimp only at h
      by_cases hcond : ((if idp = a1 then some ep else r1).isSome = true ∧
          (if idp = a2 then some ep else r2).isSome = true)
      · rw [if_pos hcond] at h
        dsimp only at h
        by_cases h1 : idp = a1
        · rw [if_pos h1] at h
          rcases Option.some.inj h with he
          exact Or.inr (by rw [← he, ← h1]; exact List.mem_cons_self _ _)
        · rw [if_neg h1] at h
          exact Or.inl h
      · rw [if_neg hcond] at h
        rcases ih _ _ _ h with h' | h'
        · by_cases h1 : idp = a1
          · rw [if_pos h1] at h'
            rcases Option.some.inj h' with he
            exact Or.inr (by rw [← he, ← h1]; exact List.mem_cons_self _ _)
          · rw [if_neg h1] at h'
            exact Or.inl h'
        · exact Or.inr (List.mem_cons_of_mem _ h')

/-- A second component found by the entity-search loop either came in as
the accumulator or is an entity of the join list carrying the second id. -/
theorem findEntitiesAux_snd (a1 a2 : AgentId) :
    ∀ (l : List (ℕ × AgentId)) (r1 r2 : Option ℕ) (e : ℕ),
      (findEntitiesAux a1 a2 l r1 r2).2 = some e → r2 = some e ∨ (e, a2) ∈ l := by
  intro l
  induction l with
  | nil => intro r1 r2 e h; exact Or.inl h
  | cons p rest ih =>
      intro r1 r2 e h
      obtain ⟨ep, idp⟩ := p
      unfold findEntitiesAux at h
      dsimp only at h
      by_cases hcond : ((if idp = a1 then some ep else r1).isSome = true ∧
          (if idp = a2 then some ep else r2).isSome = true)
      · rw [if_pos hcond] at h
        dsimp only at h
        by_cases h1 : idp = a2
        · rw [if_pos h1] at h
          rcases Option.some.inj h with he
          exact Or.inr (by rw [← he, ← h1]; exact List.mem_cons_self _ _)
        · rw [if_neg h1] at h
          exact Or.inl h
      · rw [if_neg hcond] at h
        rcases ih _ _ _ h with h' | h'
        · by_cases h1 : idp = a2
          · rw [if_pos h1] at h'
            rcases Option.some.inj h' with he
            exact Or.inr (by rw [← he, ← h1]; exact List.mem_cons_self _ _)
          · rw [if_neg h1] at h'
            exact Or.inl h'
        · exact Or.inr (List.mem_cons_of_mem _ h')

/-- Membership in the join list identifies the entity's Agent component. -/
theorem joinList_mem (w : WorldState) (e : ℕ) (id : AgentId)
    (h : (e, id) ∈ joinList w) :
    ∃ ag : Agent, w.agentOf e = some ag ∧ ag.id = id := by
  unfold joinList at h
  rw [List.mem_filterMap] at h
  obtain ⟨e', _, hmap⟩ := h
  cases hag : w.agentOf e' with
  | none => rw [hag] at hmap; simp at hmap
  | some ag =>
      rw [hag] at hmap
      simp only [Option.map_some', Option.some.injEq, Prod.mk.injEq] at hmap
      obtain ⟨he, hid⟩ := hmap
      subst he
      exact ⟨ag, hag, hid⟩

/-- When both participants resolve to distinct entities with reputation
stores, processing the event updates both stores symmetrically. -/
theorem processEvent_both (w : WorldState) (ev : TransactionEvent)
    (e1 e2 : ℕ) (rk1 rk2 : ReputationKnowledge) (hne : e1 ≠ e2)
    (hf : findEntities (joinList w) ev.agent1 ev.agent2 = (some e1, some e2))
    (h1 : w.repOf e1 = some rk1) (h2 : w.repOf e2 = some rk2) :
    processEvent w ev =
      (w.setRep e1 (rk1.update_reputation ev.agent2 ev.outcome.weight ev.tick)).setRep
        e2 (rk2.update_reputation ev.agent1 ev.outcome.weight ev.tick) := by
  unfold processEvent
  dsimp only
  rw [hf]
  dsimp only
  rw [h1]
  dsimp only
  have hrep2 : (w.setRep e1
      (rk1.update_reputation ev.agent2 ev.outcome.weight ev.tick)).repOf e2 =
      some rk2 := by
    unfold WorldState.setRep
    dsimp only
    rw [if_neg (Ne.symm hne)]
    exact h2
  rw [hrep2]

/-- When the first side does not resolve (no entity, or an entity without
a reputation store) and the second does, only the second store changes. -/
theorem processEvent_side2_only (w : WorldState) (ev : TransactionEvent)
    (e2 : ℕ) (rk2 : ReputationKnowledge)
    (hf1 : (findEntities (joinList w) ev.agent1 ev.agent2).1 = none ∨
      ∃ e1, (findEntities (joinList w) ev.agent1 ev.agent2).1 = some e1 ∧
        w.repOf e1 = none)
    (hf2 : (findEntities (joinList w) ev.agent1 ev.agent2).2 = some e2)
    (h2 : w.repOf e2 = some rk2) :
    processEvent w ev =
      w.setRep e2 (rk2.update_reputation ev.agent1 ev.outcome.weight ev.tick) := by
  unfold processEvent
  dsimp only
  rw [hf2]
  rcases hf1 with h | ⟨e1, he1, hre⟩
  · rw [h]
    dsimp only
    rw [h2]
  · rw [he1]
    dsimp only
    rw [hre]
    dsimp only
    rw [h2]

/-- When the second side does not resolve (no entity, or an entity without
a reputation store) and the first does, only the first store changes. -/
theorem processEvent_side1_only (w : WorldState) (ev : TransactionEvent)
    (e1 : ℕ) (rk1 : ReputationKnowledge)
    (hf1 : (findEntities (joinList w) ev.agent1 ev.agent2).1 = some e1)
    (h1 : w.repOf e1 = some rk1)
    (hf2 : (findEntities (joinList w) ev.agent1 ev.agent2).2 = none ∨
      ∃ e2, (findEntities (joinList w) ev.agent1 ev.agent2).2 = some e2 ∧
        w.repOf e2 = none) :
    processEvent w ev =
      w.setRep e1 (rk1.update_reputation ev.agent2 ev.outcome.weight ev.tick) := by
  unfold processEvent
  dsimp only
  rw [hf1]
  dsimp only
  rw [h1]
  dsimp only
  rcases hf2 with h | ⟨e2, he2, hre⟩
  · rw [h]
  · rw [he2]
    dsimp only
    have hne : e2 ≠ e1 := by
      intro hc
      subst hc
      rw [h1] at hre
      exact Option.some_ne_none rk1 hre
    have hrep : (w.setRep e1
        (rk1.update_reputation ev.agent2 ev.outcome.weight ev.tick)).repOf e2 =
        none := by
      unfold WorldState.setRep
      dsimp only
      rw [if_neg hne]
      exact hre
    rw [hrep]

/-- Processing events never touches the (already drained) log. -/
theorem processEvent_log (w : WorldState) (ev : TransactionEvent) :
    (processEvent w ev).log = w.log := by
  unfold processEvent WorldState.setRep
  dsimp only
  cases (findEntities (joinList w) ev.agent1 ev.agent2).1 with
  | none =>
      dsimp only
      cases (findEntities (joinList w) ev.agent1 ev.agent2).2 with
      | none => rfl
      | some e2 =>
          dsimp only
          cases w.repOf e2 <;> rfl
  | some e1 =>
      dsimp only
      cases w.repOf e1 with
      | none =>
          dsimp only
          cases (findEntities (joinList w) ev.agent1 ev.agent2).2 with
          | none => rfl
          | some e2 =>
              dsimp only
              cases w.repOf e2 <;> rfl
      | some rk1 =>
          dsimp only
          cases (findEntities (joinList w) ev.agent1 ev.agent2).2 with
          | none => rfl
          | some e2 =>
              dsimp only
              cases (if e2 = e1 then
                  some (rk1.update_reputation ev.agent2 ev.outcome.weight ev.tick)
                else w.repOf e2) <;> rfl

/-- Folding the per-event step over any batch leaves the log where it
started. -/
theorem foldl_processEvent_log :
    ∀ (evs : List TransactionEvent) (w0 : WorldState),
      (evs.foldl processEvent w0).log = w0.log := by
  intro evs
  induction evs with
  | nil => intro w0; rfl
  | cons ev rest ih =>
      intro w0
      rw [List.foldl_cons, ih, processEvent_log]

/-- C2: for an event whose two (distinct) participants both resolve to
entities with reputation stores, one `ReputationUpdateSystem` pass applies
the same signed weight `outcome.weight()` and the same tick to agent1's
view of agent2 and agent2's view of agent1, producing identical
alpha and beta deltas on both sides. -/
theorem update_system_symmetric (w : WorldState) (ev : TransactionEvent)
    (e1 e2 : ℕ) (rk1 rk2 : ReputationKnowledge)
    (hne : ev.agent1 ≠ ev.agent2) (hlog : w.log = [ev])
    (hf : findEntities (joinList w) ev.agent1 ev.agent2 = (some e1, some e2))
    (h1 : w.repOf e1 = some rk1) (h2 : w.repOf e2 = some rk2) :
    ∃ rk1' rk2',
      (ReputationUpdateSystem.run w).repOf e1 = some rk1' ∧
      (ReputationUpdateSystem.run w).repOf e2 = some rk2' ∧
      lookupView rk1'.first_hand ev.agent2 =
        some (((lookupView rk1.first_hand ev.agent2).getD ReputationView.new).update
          ev.outcome.weight ev.tick) ∧
      lookupView rk2'.first_hand ev.agent1 =
        some (((lookupView rk2.first_hand ev.agent1).getD ReputationView.new).update
          ev.outcome.weight ev.tick) ∧
      ((((lookupView rk1.first_hand ev.agent2).getD ReputationView.new).update
            ev.outcome.weight ev.tick).alpha -
          ((lookupView rk1.first_hand ev.agent2).getD ReputationView.new).alpha =
        (((lookupView rk2.first_hand ev.agent1).getD ReputationView.new).update
            ev.outcome.weight ev.tick).alpha -
          ((lookupView rk2.first_hand ev.agent1).getD ReputationView.new).alpha) ∧
      ((((lookupView rk1.first_hand ev.agent2).getD ReputationView.new).update
            ev.outcome.weight ev.tick).beta -
          ((lookupView rk1.first_hand ev.agent2).getD ReputationView.new).beta =
        (((lookupView rk2.first_hand ev.agent1).getD ReputationView.new).update
            ev.outcome.weight ev.tick).beta -
          ((lookupView rk2.first_hand ev.agent1).getD ReputationView.new).beta) := by
  -- the two participants resolve to distinct entities
  have hfst : (findEntities (joinList w) ev.agent1 ev.agent2).1 = some e1 := by
    rw [hf]
  have hsnd : (findEntities (joinList w) ev.agent1 ev.agent2).2 = some e2 := by
    rw [hf]
  have hm1 : (e1, ev.agent1) ∈ joinList w := by
    rcases findEntitiesAux_fst ev.agent1 ev.agent2 (joinList w) none none e1 hfst with
      h | h
    · exact absurd h (by simp)
    · exact h
  have hm2 : (e2, ev.agent2) ∈ joinList w := by
    rcases findEntitiesAux_snd ev.agent1 ev.agent2 (joinList w) none none e2 hsnd with
      h | h
    · exact absurd h (by simp)
    · exact h
  obtain ⟨ag1, hag1, hid1⟩ := joinList_mem w e1 ev.agent1 hm1
  obtain ⟨ag2, hag2, hid2⟩ := joinList_mem w e2 ev.agent2 hm2
  have hee : e1 ≠ e2 := by
    intro hcontra
    subst hcontra
    rw [hag1] at hag2
    exact hne (by rw [← hid1, ← hid2, Option.some.inj hag2])
  -- the run on a one-event log is a single processEvent on the drained world
  have hrun : ReputationUpdateSystem.run w =
      processEvent { w with log := [] } ev := by
    unfold ReputationUpdateSystem.run
    rw [hlog]
    rfl
  have hboth := processEvent_both { w with log := [] } ev e1 e2 rk1 rk2 hee hf h1 h2
  rw [hrun, hboth]
  refine ⟨rk1.update_reputation ev.agent2 ev.outcome.weight ev.tick,
    rk2.update_reputation ev.agent1 ev.outcome.weight ev.tick, ?_, ?_, ?_, ?_, ?_, ?_⟩
  · show (if e1 = e2 then _ else if e1 = e1 then _ else _) = _
    rw [if_neg hee, if_pos rfl]
  · show (if e2 = e2 then _ else _) = _
    rw [if_pos rfl]
  · exact update_reputation_lookup rk1 ev.agent2 ev.outcome.weight ev.tick
  · exact update_reputation_lookup rk2 ev.agent1 ev.outcome.weight ev.tick
  · exact (update_deltas ev.outcome.weight ev.tick _ _).1
  · exact (update_deltas ev.outcome.weight ev.tick _ _).2

/-- Witness for C2 on a concrete two-agent world with one positive event. -/
theorem update_system_symmetric_witness :
    ∃ rk1' rk2',
      (ReputationUpdateSystem.run twoAgentWorld).repOf 10 = some rk1' ∧
      (ReputationUpdateSystem.run twoAgentWorld).repOf 20 = some rk2' ∧
      lookupView rk1'.first_hand 2 =
        some (ReputationView.new.update (Outcome.Positive 1).weight 100) ∧
      lookupView rk2'.first_hand 1 =
        some (ReputationView.new.update (Outcome.Positive 1).weight 100) := by
  obtain ⟨rk1', rk2', hA, hB, hC, hD, _, _⟩ :=
    update_system_symmetric twoAgentWorld
      { agent1 := 1, agent2 := 2, item := none, price := none,
        outcome := Outcome.Positive 1, tick := 100 }
      10 20 ReputationKnowledge.new ReputationKnowledge.new
      (by decide) rfl rfl rfl rfl
  refine ⟨rk1', rk2', hA, hB, ?_, ?_⟩
  · simpa [ReputationKnowledge.new, lookupView] using hC
  · simpa [ReputationKnowledge.new, lookupView] using hD

/-- C3: a `ReputationUpdateSystem` pass always leaves the log empty, and an
event side whose participant cannot be resolved (missing entity or missing
reputation component) is skipped while the resolvable other side still
receives its update, nothing else changing — in either orientation:
agent1's side unresolvable with agent2 updating, or agent2's side
unresolvable with agent1 updating. -/
theorem update_system_drains_and_skips :
    (∀ w : WorldState, (ReputationUpdateSystem.run w).log = []) ∧
    (∀ (w : WorldState) (ev : TransactionEvent) (e2 : ℕ) (rk2 : ReputationKnowledge),
      w.log = [ev] →
      ((findEntities (joinList w) ev.agent1 ev.agent2).1 = none ∨
        ∃ e1, (findEntities (joinList w) ev.agent1 ev.agent2).1 = some e1 ∧
          w.repOf e1 = none) →
      (findEntities (joinList w) ev.agent1 ev.agent2).2 = some e2 →
      w.repOf e2 = some rk2 →
      (ReputationUpdateSystem.run w).repOf e2 =
        some (rk2.update_reputation ev.agent1 ev.outcome.weight ev.tick) ∧
      ∀ e, e ≠ e2 → (ReputationUpdateSystem.run w).repOf e = w.repOf e) ∧
    (∀ (w : WorldState) (ev : TransactionEvent) (e1 : ℕ) (rk1 : ReputationKnowledge),
      w.log = [ev] →
      (findEntities (joinList w) ev.agent1 ev.agent2).1 = some e1 →
      w.repOf e1 = some rk1 →
      ((findEntities (joinList w) ev.agent1 ev.agent2).2 = none ∨
        ∃ e2, (findEntities (joinList w) ev.agent1 ev.agent2).2 = some e2 ∧
          w.repOf e2 = none) →
      (ReputationUpdateSystem.run w).repOf e1 =
        some (rk1.update_reputation ev.agent2 ev.outcome.weight ev.tick) ∧
      ∀ e, e ≠ e1 → (ReputationUpdateSystem.run w).repOf e = w.repOf e) := by
  refine ⟨?_, ?_, ?_⟩
  · intro w
    unfold ReputationUpdateSystem.run
    rw [foldl_processEvent_log]
  · intro w ev e2 rk2 hlog hf1 hf2 h2
    have hrun : ReputationUpdateSystem.run w =
        processEvent { w with log := [] } ev := by
      unfold ReputationUpdateSystem.run
      rw [hlog]
      rfl
    have hside := processEvent_side2_only { w with log := [] } ev e2 rk2 hf1 hf2 h2
    rw [hrun, hside]
    constructor
    · show (if e2 = e2 then _ else _) = _
      rw [if_pos rfl]
    · intro e he
      show (if e = e2 then _ else _) = _
      rw [if_neg he]
  · intro w ev e1 rk1 hlog hf1 h1 hf2
    have hrun : ReputationUpdateSystem.run w =
        processEvent { w with log := [] } ev := by
      unfold ReputationUpdateSystem.run
      rw [hlog]
      rfl
    have hside := processEvent_side1_only { w with log := [] } ev e1 rk1 hf1 h1 hf2
    rw [hrun, hside]
    constructor
    · show (if e1 = e1 then _ else _) = _
      rw [if_pos rfl]
    · intro e he
      show (if e = e1 then _ else _) = _
      rw [if_neg he]

/-- Witness for C3 on concrete worlds: one where the event's first
participant has no entity (agent2 still updates), and one where the
second participant has no entity (agent1 still updates). -/
theorem update_system_drains_and_skips_witness :
    (ReputationUpdateSystem.run oneAgentWorld).log = [] ∧
    (ReputationUpdateSystem.run oneAgentWorld).repOf 20 =
      some (ReputationKnowledge.new.update_reputation 1 (Outcome.Positive 1).weight 100) ∧
    (ReputationUpdateSystem.run oneAgentWorld).repOf 10 = oneAgentWorld.repOf 10 ∧
    (ReputationUpdateSystem.run oneAgentFirstWorld).repOf 10 =
      some (ReputationKnowledge.new.update_reputation 2 (Outcome.Positive 1).weight 100) ∧
    (ReputationUpdateSystem.run oneAgentFirstWorld).repOf 20 =
      oneAgentFirstWorld.repOf 20 := by
  have hdrain := update_system_drains_and_skips.1 oneAgentWorld
  have hskip := update_system_drains_and_skips.2.1 oneAgentWorld
    { agent1 := 1, agent2 := 2, item := none, price := none,
      outcome := Outcome.Positive 1, tick := 100 }
    20 ReputationKnowledge.new rfl (Or.inl rfl) rfl rfl
  have hskip' := update_system_drains_and_skips.2.2 oneAgentFirstWorld
    { agent1 := 1, agent2 := 2, item := none, price := none,
      outcome := Outcome.Positive 1, tick := 100 }
    10 ReputationKnowledge.new rfl rfl rfl (Or.inl rfl)
  exact ⟨hdrain, hskip.1, hskip.2 10 (by decide), hskip'.1, hskip'.2 20 (by decide)⟩

/-- C6 counterexample: two stores holding the same agent-to-view mapping
but iterated in different orders. `get_most_trusted` sorts only by score,
so the equal-score tie keeps iteration order: the outputs differ from each
other and from the spec's (score desc, id asc) ordering. -/
theorem get_most_trusted_id_tiebreak_fails :
    lookupView storeOrder12.first_hand 1 = lookupView storeOrder21.first_hand 1 ∧
    lookupView storeOrder12.first_hand 2 = lookupView storeOrder21.first_hand 2 ∧
    storeOrder12.get_most_trusted 2 =
      [(1, ReputationView.new.score), (2, ReputationView.new.score)] ∧
    storeOrder21.get_most_trusted 2 =
      [(2, ReputationView.new.score), (1, ReputationView.new.score)] ∧
    storeOrder12.get_most_trusted 2 ≠ storeOrder21.get_most_trusted 2 ∧
    storeOrder21.get_most_trusted 2 ≠ getMostTrustedSpec storeOrder21 2 := by
  have hA : storeOrder12.get_most_trusted 2 =
      [(1, ReputationView.new.score), (2, ReputationView.new.score)] := by
    unfold ReputationKnowledge.get_most_trusted storeOrder12
    simp only [List.map_cons, List.map_nil, List.insertionSort, List.orderedInsert]
    rw [if_pos (show scoreOrd (1, ReputationView.new.score)
      (2, ReputationView.new.score) from le_refl _)]
    simp
  have hB : storeOrder21.get_most_trusted 2 =
      [(2, ReputationView.new.score), (1, ReputationView.new.score)] := by
    unfold ReputationKnowledge.get_most_trusted storeOrder21
    simp only [List.map_cons, List.map_nil, List.insertionSort, List.orderedInsert]
    rw [if_pos (show scoreOrd (2, ReputationView.new.score)
      (1, ReputationView.new.score) from le_refl _)]
    simp
  have hSpec : getMostTrustedSpec storeOrder21 2 =
      [(1, ReputationView.new.score), (2, ReputationView.new.score)] := by
    unfold getMostTrustedSpec storeOrder21
    simp only [List.map_cons, List.map_nil, List.insertionSort, List.orderedInsert]
    rw [if_neg (show ¬ specScoreOrd (2, ReputationView.new.score)
      (1, ReputationView.new.score) by
        intro hcontra
        rcases hcontra with h | ⟨_, h21⟩
        · exact lt_irrefl _ h
        · exact absurd h21 (by norm_num))]
    simp
  refine ⟨?_, ?_, hA, hB, ?_, ?_⟩
  · simp [storeOrder12, storeOrder21, lookupView]
  · simp [storeOrder12, storeOrder21, lookupView]
  · rw [hA, hB]
    simp
  · rw [hB, hSpec]
    simp

/-- C6 (amended): `get_most_trusted(n)` returns the first `n` entries of a
stable sort of the known `(agent, score)` pairs by score descending only;
among equal scores the backing map's iteration order is kept, so the
output is not independent of that order. -/
theorem get_most_trusted_sorted_desc (rk : ReputationKnowledge) (n : ℕ) :
    ∃ sorted : List (AgentId × ℝ),
      sorted.Perm (rk.first_hand.map fun p => (p.1, p.2.score)) ∧
      List.Sorted scoreOrd sorted ∧
      rk.get_most_trusted n = sorted.take n :=
  ⟨_, List.perm_insertionSort scoreOrd _, List.sorted_insertionSort scoreOrd _, rfl⟩

/-- A nonempty candidate list always has a first maximal element. -/
theorem firstMax_cons (c : Intent × ℚ) (cs : List (Intent × ℚ)) :
    ∃ x, firstMax (c :: cs) = some x := by
  unfold firstMax
  cases firstMax cs with
  | none => exact ⟨c, rfl⟩
  | some d =>
      dsimp only
      by_cases h : c.2 < d.2
      · exact ⟨d, by rw [if_pos h]⟩
      · exact ⟨c, by rw [if_neg h]⟩

/-- The head of the stable descending sort is the first element of the
original list attaining the maximal utility. -/
theorem head_sortCandidates_eq_firstMax :
    ∀ l : List (Intent × ℚ), (sortCandidates l).head? = firstMax l := by
  intro l
  induction l with
  | nil => rfl
  | cons c cs ih =>
      show (List.orderedInsert candOrd c (List.insertionSort candOrd cs)).head? =
        firstMax (c :: cs)
      cases h : List.insertionSort candOrd cs with
      | nil =>
          have hnone : firstMax cs = none := by
            rw [← ih]
            show (List.insertionSort candOrd cs).head? = none
            rw [h]
            rfl
          rw [List.orderedInsert]
          show some c = firstMax (c :: cs)
          unfold firstMax
          rw [hnone]
      | cons d ds =>
          have hd : firstMax cs = some d := by
            rw [← ih]
            show (List.insertionSort candOrd cs).head? = some d
            rw [h]
            rfl
          have hfm : firstMax (c :: cs) = if c.2 < d.2 then some d else some c := by
            unfold firstMax
            rw [hd]
          rw [hfm]
          by_cases hcd : candOrd c d
          · rw [List.orderedInsert, if_pos hcd, if_neg (not_lt.mpr hcd)]
            rfl
          · rw [List.orderedInsert, if_neg hcd, if_pos (not_le.mp (fun hle => hcd hle))]
            rfl

/-- The first maximal element belongs to the list and its utility bounds
every utility of the list. -/
theorem firstMax_max :
    ∀ (l : List (Intent × ℚ)) (c : Intent × ℚ), firstMax l = some c →
      c ∈ l ∧ ∀ d ∈ l, d.2 ≤ c.2 := by
  intro l
  induction l with
  | nil => intro c h; cases h
  | cons a cs ih =>
      intro c h
      unfold firstMax at h
      cases hcs : firstMax cs with
      | none =>
          rw [hcs] at h
          rcases Option.some.inj h with rfl
          refine ⟨List.mem_cons_self _ _, ?_⟩
          intro d hd
          rcases List.mem_cons.mp hd with rfl | hd'
          · exact le_refl _
          · cases cs with
            | nil => cases hd'
            | cons b bs =>
                obtain ⟨x, hx⟩ := firstMax_cons b bs
                rw [hx] at hcs
                cases hcs
      | some d =>
          rw [hcs] at h
          dsimp only at h
          obtain ⟨hdmem, hdmax⟩ := ih d hcs
          by_cases hlt : a.2 < d.2
          · rw [if_pos hlt] at h
            rcases Option.some.inj h with rfl
            refine ⟨List.mem_cons_of_mem _ hdmem, ?_⟩
            intro x hx
            rcases List.mem_cons.mp hx with rfl | hx'
            · exact hlt.le
            · exact hdmax x hx'
          · rw [if_neg hlt] at h
            rcases Option.some.inj h with rfl
            refine ⟨List.mem_cons_self _ _, ?_⟩
            intro x hx
            rcases List.mem_cons.mp hx with rfl | hx'
            · exact le_refl _
            · exact le_trans (hdmax x hx') (not_lt.mp hlt)

/-- The first maximal element is the first: everything before it in the
original list has strictly smaller utility. -/
theorem firstMax_first :
    ∀ (l : List (Intent × ℚ)) (c : Intent × ℚ), firstMax l = some c →
      ∃ l₁ l₂, l = l₁ ++ c :: l₂ ∧ ∀ d ∈ l₁, d.2 < c.2 := by
  intro l
  induction l with
  | nil => intro c h; cases h
  | cons a cs ih =>
      intro c h
      unfold firstMax at h
      cases hcs : firstMax cs with
      | none =>
          rw [hcs] at h
          rcases Option.some.inj h with rfl
          exact ⟨[], cs, rfl, fun d hd => absurd hd (List.not_mem_nil d)⟩
      | some d =>
          rw [hcs] at h
          dsimp only at h
          by_cases hlt : a.2 < d.2
          · rw [if_pos hlt] at h
            rcases Option.some.inj h with rfl
            obtain ⟨l₁, l₂, hsplit, hsmall⟩ := ih d hcs
            refine ⟨a :: l₁, l₂, by rw [hsplit]; rfl, ?_⟩
            intro x hx
            rcases List.mem_cons.mp hx with rfl | hx'
            · exact hlt
            · exact hsmall x hx'
          · rw [if_neg hlt] at h
            rcases Option.some.inj h with rfl
            exact ⟨[], cs, rfl, fun x hx => absurd hx (List.not_mem_nil x)⟩

/-- The candidate list always contains the final Wander entry. -/
theorem buildUtilities_ne_nil (um : UtilityMaximizer) (needs : Needs)
    (sp : Option SpeciesComponent) (wq : WorldQuery) (aid : AgentId) :
    um.buildUtilities needs sp wq aid ≠ [] := by
  unfold UtilityMaximizer.buildUtilities
  intro h
  simp only [List.append_eq_nil] at h
  exact List.cons_ne_nil _ _ h.2

/-- A nonempty candidate list has a first maximal element. -/
theorem firstMax_of_ne_nil (l : List (Intent × ℚ)) (h : l ≠ []) :
    ∃ c, firstMax l = some c := by
  cases l with
  | nil => exact absurd rfl h
  | cons c cs => exact firstMax_cons c cs

/-- On an entity with both components, `decide` returns the first
candidate of maximal utility, wrapped as an Intent output. -/
theorem decide_eq_chooseFirstMax (um : UtilityMaximizer) (needs : Needs) (ag : Agent)
    (sp : Option SpeciesComponent) (wq : WorldQuery) :
    um.decide (some needs) (some ag) sp wq =
      some (DecisionOutput.Intent
        (chooseFirstMaxUtility (um.buildUtilities needs sp wq ag.id))) := by
  obtain ⟨c, hc⟩ := firstMax_of_ne_nil (um.buildUtilities needs sp wq ag.id)
    (buildUtilities_ne_nil um needs sp wq ag.id)
  unfold UtilityMaximizer.decide
  dsimp only
  rw [head_sortCandidates_eq_firstMax, hc]
  unfold chooseFirstMaxUtility
  rw [hc]

/-- C1: on an entity with Needs (and Agent identity), `decide` returns the
candidate with maximal utility from the list built in the fixed order
water, food, rest, wander — candidates appear only for needs strictly
above their high thresholds, plus the always-present Wander of utility
0.1; ties resolve to the first candidate in that order, and when no need
exceeds its high threshold the result is Wander. -/
theorem decide_selects_first_max (um : UtilityMaximizer) (needs : Needs) (ag : Agent)
    (sp : Option SpeciesComponent) (wq : WorldQuery) :
    um.decide (some needs) (some ag) sp wq =
      some (DecisionOutput.Intent
        (chooseFirstMaxUtility (um.buildUtilities needs sp wq ag.id))) ∧
    (∀ c, firstMax (um.buildUtilities needs sp wq ag.id) = some c →
      chooseFirstMaxUtility (um.buildUtilities needs sp wq ag.id) = c.1 ∧
      c ∈ um.buildUtilities needs sp wq ag.id ∧
      (∀ d ∈ um.buildUtilities needs sp wq ag.id, d.2 ≤ c.2) ∧
      ∃ l₁ l₂, um.buildUtilities needs sp wq ag.id = l₁ ++ c :: l₂ ∧
        ∀ d ∈ l₁, d.2 < c.2) ∧
    (needs.thirst ≤ um.thresholds.high_thirst →
      needs.hunger ≤ um.thresholds.high_hunger →
      needs.tiredness ≤ um.thresholds.high_tiredness →
      um.decide (some needs) (some ag) sp wq =
        some (DecisionOutput.Intent Intent.Wander)) := by
  refine ⟨decide_eq_chooseFirstMax um needs ag sp wq, ?_, ?_⟩
  · intro c hc
    obtain ⟨hmem, hmax⟩ := firstMax_max _ c hc
    obtain ⟨l₁, l₂, hsplit, hfirst⟩ := firstMax_first _ c hc
    exact ⟨by unfold chooseFirstMaxUtility; rw [hc], hmem, hmax, l₁, l₂, hsplit, hfirst⟩
  · intro h1 h2 h3
    rw [decide_eq_chooseFirstMax um needs ag sp wq]
    have hbuild : um.buildUtilities needs sp wq ag.id = [(Intent.Wander, 1/10)] := by
      unfold UtilityMaximizer.buildUtilities
      rw [if_neg (not_lt.mpr h1), if_neg (not_lt.mpr h2), if_neg (not_lt.mpr h3)]
      rfl
    rw [hbuild]
    rfl

/-- Witness for C1 at the spec's scenario B: all needs at 20, below the
default high thresholds, no resources nearby. -/
theorem decide_selects_first_max_witness :
    UtilityMaximizer.default.decide
        (some { thirst := 20, hunger := 20, tiredness := 20 })
        (some { id := 1 }) none emptyWorldQuery =
      some (DecisionOutput.Intent Intent.Wander) :=
  (decide_selects_first_max UtilityMaximizer.default
      { thirst := 20, hunger := 20, tiredness := 20 } { id := 1 } none
      emptyWorldQuery).2.2
    (by norm_num [UtilityMaximizer.default, DecisionThresholds.default])
    (by norm_num [UtilityMaximizer.default, DecisionThresholds.default])
    (by norm_num [UtilityMaximizer.default, DecisionThresholds.default])

/-- The best-option fold of `evaluate_seek_food` only ever holds item
types drawn from the allowed set. -/
theorem foodFold_mem (um : UtilityMaximizer) (aid : AgentId) (urg : ℚ)
    (wq : WorldQuery) (S : List String) :
    ∀ (items : List String) (acc : Option (ℚ × String)) (b : ℚ × String),
      (∀ x, acc = some x → x.2 ∈ S) → (∀ i ∈ items, i ∈ S) →
      items.foldl (foodFoldStep um aid urg wq) acc = some b → b.2 ∈ S := by
  intro items
  induction items with
  | nil => intro acc b hacc _ h; exact hacc b h
  | cons i rest ih =>
      intro acc b hacc hins h
      rw [List.foldl_cons] at h
      refine ih _ b ?_ (fun j hj => hins j (List.mem_cons_of_mem _ hj)) h
      intro x hx
      unfold foodFoldStep at hx
      cases hsrc : (wq.getNearbyResources aid i um.resource_search_radius).head? with
      | none =>
          rw [hsrc] at hx
          exact hacc x hx
      | some closest =>
          rw [hsrc] at hx
          dsimp only at hx
          cases acc with
          | none =>
              rcases Option.some.inj hx with rfl
              exact hins i (List.mem_cons_self _ _)
          | some b' =>
              dsimp only at hx
              split_ifs at hx
              · rcases Option.some.inj hx with rfl
                exact hins i (List.mem_cons_self _ _)
              · rcases Option.some.inj hx with rfl
                exact hacc b' rfl

/-- Every diet branch yields a nonempty candidate food-type list. -/
theorem foodItemsFor_ne_nil (sp : Option SpeciesComponent) : foodItemsFor sp ≠ [] := by
  cases sp with
  | none => simp [foodItemsFor]
  | some s =>
      obtain ⟨spec, diet⟩ := s
      cases diet with
      | Herbivore plants => by_cases hp : plants = [] <;> simp [foodItemsFor, hp]
      | Carnivore prey => simp [foodItemsFor]
      | Omnivore plants prey => by_cases hp : plants = [] <;> simp [foodItemsFor, hp]

/-- An item type returned by `evaluate_seek_food` always comes from the
diet's candidate set, found-source and fallback cases alike. -/
theorem evaluate_seek_food_mem (um : UtilityMaximizer) (aid : AgentId) (hunger : ℚ)
    (sp : Option SpeciesComponent) (wq : WorldQuery) (u : ℚ) (ty : String)
    (h : um.evaluate_seek_food aid hunger sp wq = some (u, ty)) :
    ty ∈ foodItemsFor sp := by
  unfold UtilityMaximizer.evaluate_seek_food at h
  dsimp only at h
  cases hbest : (foodItemsFor sp).foldl (foodFoldStep um aid (hunger / 100) wq) none with
  | some b =>
      rw [hbest] at h
      dsimp only at h
      have hb := foodFold_mem um aid (hunger / 100) wq (foodItemsFor sp) (foodItemsFor sp)
        none b (fun x hx => by cases hx) (fun i hi => hi) hbest
      have hbe : b = (u, ty) := Option.some.inj h
      rw [hbe] at hb
      exact hb
  | none =>
      rw [hbest] at h
      dsimp only at h
      have heq := Option.some.inj h
      have hty : ty = (foodItemsFor sp).headD "food" := (Prod.mk.injEq _ _ _ _ ▸ heq).2.symm
      cases hl : foodItemsFor sp with
      | nil => exact absurd hl (foodItemsFor_ne_nil sp)
      | cons a rest =>
          rw [hty, hl]
          simp [List.headD]

/-- Any SeekItem candidate in the built list is either the water candidate
or carries an item type produced by `evaluate_seek_food`. -/
theorem mem_buildUtilities_seekItem (um : UtilityMaximizer) (needs : Needs)
    (sp : Option SpeciesComponent) (wq : WorldQuery) (aid : AgentId)
    (t : String) (u' u : ℚ)
    (h : (Intent.SeekItem t u', u) ∈ um.buildUtilities needs sp wq aid) :
    t = "water" ∨ ∃ uu, um.evaluate_seek_food aid needs.hunger sp wq = some (uu, t) := by
  unfold UtilityMaximizer.buildUtilities at h
  simp only [List.mem_append] at h
  rcases h with ((h | h) | h) | h
  · by_cases hw : um.thresholds.high_thirst < needs.thirst
    · rw [if_pos hw] at h
      cases hW : um.evaluate_seek_water aid needs.thirst wq with
      | none => rw [hW] at h; cases h
      | some utility =>
          rw [hW] at h
          simp only [List.mem_singleton, Prod.mk.injEq, Intent.SeekItem.injEq] at h
          exact Or.inl h.1.1
    · rw [if_neg hw] at h
      cases h
  · by_cases hh : um.thresholds.high_hunger < needs.hunger
    · rw [if_pos hh] at h
      cases hF : um.evaluate_seek_food aid needs.hunger sp wq with
      | none => rw [hF] at h; cases h
      | some ut =>
          rw [hF] at h
          simp only [List.mem_singleton, Prod.mk.injEq, Intent.SeekItem.injEq] at h
          obtain ⟨⟨ht, _⟩, _⟩ := h
          subst ht
          exact Or.inr ⟨ut.1, rfl⟩
    · rw [if_neg hh] at h
      cases h
  · by_cases hr : um.thresholds.high_tiredness < needs.tiredness
    · rw [if_pos hr] at h
      simp at h
    · rw [if_neg hr] at h
      cases h
  · simp at h

/-- C7 counterexample: a thirsty, hungry Herbivore(["grass"]) near water —
the engine emits SeekItem "water", which is not in the preferred-plants
list, so not every emitted SeekItem targets a preferred plant. -/
theorem herbivore_seekitem_counterexample :
    DecisionThresholds.default.high_hunger < 80 ∧
    (["grass"] : List String) ≠ [] ∧
    UtilityMaximizer.default.decide
        (some { thirst := 90, hunger := 80, tiredness := 0 })
        (some { id := 1 })
        (some { species := Species.Rabbit, diet := DietType.Herbivore ["grass"] })
        waterMeatWorldQuery =
      some (DecisionOutput.Intent (Intent.SeekItem "water" (90 / 100))) ∧
    "water" ∉ (["grass"] : List String) := by
  refine ⟨by norm_num [DecisionThresholds.default], by simp, ?_, by simp⟩
  have hbuild : UtilityMaximizer.default.buildUtilities
      { thirst := 90, hunger := 80, tiredness := 0 }
      (some { species := Species.Rabbit, diet := DietType.Herbivore ["grass"] })
      waterMeatWorldQuery 1 =
      [(Intent.SeekItem "water" (9/10), 459/200),
       (Intent.SeekItem "grass" (4/5), 8/5),
       (Intent.Wander, 1/10)] := by
    unfold UtilityMaximizer.buildUtilities UtilityMaximizer.evaluate_seek_water
      UtilityMaximizer.evaluate_seek_food foodItemsFor foodFoldStep
      waterMeatWorldQuery UtilityMaximizer.default DecisionThresholds.default
      UtilityWeights.default
    simp
    norm_num
  have hfm : firstMax
      [(Intent.SeekItem "water" (9/10), 459/200),
       (Intent.SeekItem "grass" (4/5), 8/5),
       (Intent.Wander, 1/10)] = some (Intent.SeekItem "water" (9/10), 459/200) := by
    norm_num [firstMax]
  rw [decide_eq_chooseFirstMax]
  show some (DecisionOutput.Intent (chooseFirstMaxUtility
      (UtilityMaximizer.default.buildUtilities
        { thirst := 90, hunger := 80, tiredness := 0 }
        (some { species := Species.Rabbit, diet := DietType.Herbivore ["grass"] })
        waterMeatWorldQuery 1))) = _
  rw [hbuild]
  unfold chooseFirstMaxUtility
  rw [hfm]
  norm_num

/-- Every non-water SeekItem intent the engine emits targets a member of
the diet's candidate food set. -/
theorem decide_seekitem_in_food_set (um : UtilityMaximizer) (needs : Needs)
    (ag : Agent) (sp : Option SpeciesComponent) (wq : WorldQuery)
    (t : String) (u : ℚ)
    (hdec : um.decide (some needs) (some ag) sp wq =
      some (DecisionOutput.Intent (Intent.SeekItem t u)))
    (hwater : t ≠ "water") :
    t ∈ foodItemsFor sp := by
  have heq := decide_eq_chooseFirstMax um needs ag sp wq
  rw [heq] at hdec
  obtain ⟨c, hc⟩ := firstMax_of_ne_nil (um.buildUtilities needs sp wq ag.id)
    (buildUtilities_ne_nil um needs sp wq ag.id)
  obtain ⟨hmem, _⟩ := firstMax_max _ c hc
  have hcintent : c.1 = Intent.SeekItem t u := by
    have : chooseFirstMaxUtility (um.buildUtilities needs sp wq ag.id) =
        Intent.SeekItem t u := by
      injection Option.some.inj hdec
    rw [← this]
    unfold chooseFirstMaxUtility
    rw [hc]
  have hmem' : (Intent.SeekItem t u, c.2) ∈ um.buildUtilities needs sp wq ag.id := by
    rw [← hcintent]
    exact hmem
  rcases mem_buildUtilities_seekItem um needs sp wq ag.id t u c.2 hmem' with h | ⟨uu, hF⟩
  · exact absurd h hwater
  · exact evaluate_seek_food_mem um ag.id needs.hunger sp wq uu t hF

/-- C7 (amended): for a Herbivore with a nonempty preferred-plants list
and hunger above the high threshold, any SeekItem intent other than the
water intent targets an item type from the plants list (the fallback when
no source is found is the list's first element), so never "rabbit_meat"
when that is not a preferred plant, even if only a rabbit-meat source is
nearby; an empty plant list, a missing diet, or an empty-plant Omnivore
uses the default candidate set ["grass", "food"], and a Carnivore uses
["rabbit_meat"]; in general every non-water SeekItem the engine emits
targets a member of the diet's candidate food set. -/
theorem herbivore_food_intent_in_plants :
    (∀ (um : UtilityMaximizer) (needs : Needs) (ag : Agent) (sp : Species)
        (plants : List String) (wq : WorldQuery) (t : String) (u : ℚ),
      plants ≠ [] →
      um.thresholds.high_hunger < needs.hunger →
      um.decide (some needs) (some ag)
          (some { species := sp, diet := DietType.Herbivore plants }) wq =
        some (DecisionOutput.Intent (Intent.SeekItem t u)) →
      t ≠ "water" → t ∈ plants) ∧
    (∀ sp : Species,
      foodItemsFor (some { species := sp, diet := DietType.Herbivore [] }) =
        ["grass", "food"]) ∧
    foodItemsFor none = ["grass", "food"] ∧
    (∀ (sp : Species) (prey : List Species),
      foodItemsFor (some { species := sp, diet := DietType.Carnivore prey }) =
        ["rabbit_meat"]) ∧
    (∀ (sp : Species) (prey : List Species),
      foodItemsFor (some { species := sp, diet := DietType.Omnivore [] prey }) =
        ["grass", "food"]) ∧
    (∀ (um : UtilityMaximizer) (needs : Needs) (ag : Agent)
        (sp : Option SpeciesComponent) (wq : WorldQuery) (t : String) (u : ℚ),
      um.decide (some needs) (some ag) sp wq =
        some (DecisionOutput.Intent (Intent.SeekItem t u)) →
      t ≠ "water" → t ∈ foodItemsFor sp) := by
  refine ⟨?_, fun sp => by simp [foodItemsFor], by simp [foodItemsFor],
    fun sp prey => by simp [foodItemsFor], fun sp prey => by simp [foodItemsFor],
    fun um needs ag sp wq t u hdec hwater =>
      decide_seekitem_in_food_set um needs ag sp wq t u hdec hwater⟩
  intro um needs ag sp plants wq t u hplants _hhunger hdec hwater
  have h := decide_seekitem_in_food_set um needs ag
    (some { species := sp, diet := DietType.Herbivore plants }) wq t u hdec hwater
  unfold foodItemsFor at h
  dsimp only at h
  rw [if_neg hplants] at h
  exact h

/-- Witness for C7 at the spec's scenario C: Herbivore(["grass"]) with
hunger 80 and only a rabbit-meat source nearby still targets "grass";
also checks the Carnivore default set at a concrete diet. -/
theorem herbivore_food_intent_in_plants_witness :
    (["grass"] : List String) ≠ [] ∧
    UtilityMaximizer.default.thresholds.high_hunger < 80 ∧
    UtilityMaximizer.default.decide
        (some { thirst := 0, hunger := 80, tiredness := 0 })
        (some { id := 1 })
        (some { species := Species.Rabbit, diet := DietType.Herbivore ["grass"] })
        meatOnlyWorldQuery =
      some (DecisionOutput.Intent (Intent.SeekItem "grass" (80 / 100))) ∧
    "grass" ∈ (["grass"] : List String) ∧
    foodItemsFor (some { species := Species.Rabbit, diet := DietType.Carnivore [] }) =
      ["rabbit_meat"] := by
  have hdec : UtilityMaximizer.default.decide
      (some { thirst := 0, hunger := 80, tiredness := 0 })
      (some { id := 1 })
      (some { species := Species.Rabbit, diet := DietType.Herbivore ["grass"] })
      meatOnlyWorldQuery =
      some (DecisionOutput.Intent (Intent.SeekItem "grass" (80 / 100))) := by
    have hbuild : UtilityMaximizer.default.buildUtilities
        { thirst := 0, hunger := 80, tiredness := 0 }
        (some { species := Species.Rabbit, diet := DietType.Herbivore ["grass"] })
        meatOnlyWorldQuery 1 =
        [(Intent.SeekItem "grass" (4/5), 8/5), (Intent.Wander, 1/10)] := by
      unfold UtilityMaximizer.buildUtilities UtilityMaximizer.evaluate_seek_water
        UtilityMaximizer.evaluate_seek_food foodItemsFor foodFoldStep
        meatOnlyWorldQuery UtilityMaximizer.default DecisionThresholds.default
        UtilityWeights.default
      simp
      norm_num
    have hfm : firstMax [(Intent.SeekItem "grass" (4/5), 8/5), (Intent.Wander, 1/10)] =
        some (Intent.SeekItem "grass" (4/5), 8/5) := by
      norm_num [firstMax]
    rw [decide_eq_chooseFirstMax]
    show some (DecisionOutput.Intent (chooseFirstMaxUtility
        (UtilityMaximizer.default.buildUtilities
          { thirst := 0, hunger := 80, tiredness := 0 }
          (some { species := Species.Rabbit, diet := DietType.Herbivore ["grass"] })
          meatOnlyWorldQuery 1))) = _
    rw [hbuild]
    unfold chooseFirstMaxUtility
    rw [hfm]
    norm_num
  refine ⟨by simp, by norm_num [UtilityMaximizer.default, DecisionThresholds.default],
    hdec, ?_, ?_⟩
  · exact herbivore_food_intent_in_plants.1 UtilityMaximizer.default
      { thirst := 0, hunger := 80, tiredness := 0 } { id := 1 } Species.Rabbit
      ["grass"] meatOnlyWorldQuery "grass" (80 / 100) (by simp)
      (by norm_num [UtilityMaximizer.default, DecisionThresholds.default])
      hdec (by decide)
  · exact herbivore_food_intent_in_plants.2.2.2.1 Species.Rabbit []

end Libreconomy
